import Mathlib

/-!
Shallow embedding of the vending-machine control core from `VENDING1.PY`:
the product items, FIFO shelves, the shelf inventory, and the
`VendingMachine` transaction controller with its string-keyed state.
Python exceptions are modelled as `Except` results; every mutating method
returns the updated object together with its result.
-/

/-- Embeds Python `ItemType(Enum)`: the four product kinds. -/
inductive ItemType where
  | coke
  | pepsi
  | juice
  | soda
deriving DecidableEq, Repr

/-- Embeds Python `Item`: an immutable `(type, price)` pair. -/
structure Item where
  type : ItemType
  price : Nat
deriving DecidableEq, Repr

/-- The error taxonomy of the controller.  Python raises `Exception` with a
message; the distinct messages of `VENDING1.PY` are modelled as distinct
constructors, `insufficientFunds` keeping the price and paid amount that the
Python message interpolates. -/
inductive VMError where
  | outOfStock
  | invalidShelfCode
  | insufficientFunds (price : Nat) (paid : Nat)
  | invalidStateTransition
deriving DecidableEq, Repr

/-- Embeds Python `ItemShelf`: a coded slot holding an ordered list of items
plus the `is_sold_out` flag. -/
structure ItemShelf where
  code : Nat
  items : List Item
  is_sold_out : Bool
deriving DecidableEq, Repr

/-- Embeds `ItemShelf.__init__(code)`: empty stock, `is_sold_out = False`. -/
def ItemShelf.init (code : Nat) : ItemShelf :=
  { code := code, items := [], is_sold_out := false }

/-- Embeds `ItemShelf.add_item`: append at the tail, clear `is_sold_out`. -/
def ItemShelf.add_item (s : ItemShelf) (item : Item) : ItemShelf :=
  { s with items := s.items ++ [item], is_sold_out := false }

/-- Embeds `ItemShelf.remove_item`: on empty stock set `is_sold_out := true`
and raise out-of-stock; otherwise pop the head (`items.pop(0)`), setting
`is_sold_out := true` exactly when the remaining stock is empty (the flag is
left untouched when stock remains). -/
def ItemShelf.remove_item (s : ItemShelf) : ItemShelf × Except VMError Item :=
  match s.items with
  | [] => ({ s with is_sold_out := true }, Except.error VMError.outOfStock)
  | item :: rest =>
      ({ s with items := rest,
                is_sold_out := if rest.isEmpty then true else s.is_sold_out },
       Except.ok item)

/-- Embeds Python `Coin(Enum)` with values 1, 2, 5, 10. -/
inductive Coin where
  | one
  | two
  | five
  | ten
deriving DecidableEq, Repr

/-- Embeds `coin.value`. -/
def Coin.value : Coin → Nat
  | Coin.one => 1
  | Coin.two => 2
  | Coin.five => 5
  | Coin.ten => 10

/-- Embeds Python `Inventory`: the list of shelves. -/
structure Inventory where
  shelves : List ItemShelf
deriving DecidableEq, Repr

/-- Embeds `Inventory.__init__(size)`: shelves coded `100 .. 100+size-1`. -/
def Inventory.init (size : Nat) : Inventory :=
  { shelves := (List.range size).map (fun i => ItemShelf.init (100 + i)) }

/-- The shelf-list traversal of `Inventory.add_item`: first shelf whose code
matches receives the item; no match raises invalid-shelf-code. -/
def addItemShelves : List ItemShelf → Nat → Item → List ItemShelf × Except VMError Unit
  | [], _, _ => ([], Except.error VMError.invalidShelfCode)
  | shelf :: rest, code, item =>
      if shelf.code == code then
        (shelf.add_item item :: rest, Except.ok ())
      else
        let r := addItemShelves rest code item
        (shelf :: r.1, r.2)

/-- Embeds `Inventory.add_item`. -/
def Inventory.add_item (inv : Inventory) (code : Nat) (item : Item) :
    Inventory × Except VMError Unit :=
  let r := addItemShelves inv.shelves code item
  ({ shelves := r.1 }, r.2)

/-- The shelf-list traversal of `Inventory.get_item`: first shelf whose code
matches performs `remove_item` (its result, ok or error, propagates); no
match raises invalid-shelf-code and touches no shelf. -/
def getItemShelves : List ItemShelf → Nat → List ItemShelf × Except VMError Item
  | [], _ => ([], Except.error VMError.invalidShelfCode)
  | shelf :: rest, code =>
      if shelf.code == code then
        let r := shelf.remove_item
        (r.1 :: rest, r.2)
      else
        let r := getItemShelves rest code
        (shelf :: r.1, r.2)

/-- Embeds `Inventory.get_item`. -/
def Inventory.get_item (inv : Inventory) (code : Nat) :
    Inventory × Except VMError Item :=
  let r := getItemShelves inv.shelves code
  ({ shelves := r.1 }, r.2)

/-- Embeds `Inventory.has_items`. -/
def Inventory.has_items (inv : Inventory) : Bool :=
  inv.shelves.any (fun shelf => shelf.items.length > 0)

/-- Embeds Python `VendingMachine`: the string-keyed state, the inventory,
the coins of the current transaction, and the optional selected code. -/
structure VendingMachine where
  state : String
  inventory : Inventory
  inserted_coins : List Coin
  selected_code : Option Nat
deriving DecidableEq, Repr

/-- Embeds `VendingMachine.__init__`: `IDLE`, `Inventory(10)`, no coins,
no selected code. -/
def VendingMachine.init : VendingMachine :=
  { state := "IDLE", inventory := Inventory.init 10,
    inserted_coins := [], selected_code := none }

/-- Embeds `VendingMachine.reset`. -/
def VendingMachine.reset (m : VendingMachine) : VendingMachine :=
  { m with state := "IDLE", inserted_coins := [], selected_code := none }

/-- Embeds `VendingMachine.insert_coin`: rejected unless the state is
`IDLE` or `HAS_MONEY`; otherwise the coin is appended and the state becomes
`HAS_MONEY`. -/
def VendingMachine.insert_coin (m : VendingMachine) (coin : Coin) :
    VendingMachine × Except VMError Unit :=
  if m.state == "IDLE" || m.state == "HAS_MONEY" then
    ({ m with inserted_coins := m.inserted_coins ++ [coin],
              state := "HAS_MONEY" },
     Except.ok ())
  else
    (m, Except.error VMError.invalidStateTransition)

/-- Embeds `VendingMachine.select_product`.  Outside `HAS_MONEY` the guard
raises before any field is touched.  Otherwise the code is recorded, the
total is summed, `Inventory.get_item` runs (mutating the shelf even when the
later fund check fails, exactly as the Python `try` block does), and every
path — dispense, insufficient funds, or a propagated inventory error —
ends in `reset`.  A successful dispense returns the item and the change. -/
def VendingMachine.select_product (m : VendingMachine) (code : Nat) :
    VendingMachine × Except VMError (Item × Nat) :=
  if m.state == "HAS_MONEY" then
    let m1 := { m with selected_code := some code }
    let total := (m1.inserted_coins.map Coin.value).sum
    let r := m1.inventory.get_item code
    let m2 := { m1 with inventory := r.1 }
    match r.2 with
    | Except.error e => (m2.reset, Except.error e)
    | Except.ok item =>
        if total < item.price then
          (m2.reset, Except.error (VMError.insufficientFunds item.price total))
        else
          (m2.reset, Except.ok (item, total - item.price))
  else
    (m, Except.error VMError.invalidStateTransition)

/-- The operations a client may perform on a shelf. -/
inductive ShelfOp where
  | add (item : Item)
  | removeHead
deriving DecidableEq, Repr

/-- Apply one shelf operation, keeping the post-state (a failed
`remove_item` still mutates `is_sold_out`). -/
def ItemShelf.applyOp (s : ItemShelf) : ShelfOp → ItemShelf
  | ShelfOp.add item => s.add_item item
  | ShelfOp.removeHead => s.remove_item.1

/-- Apply a sequence of shelf operations in order. -/
def ItemShelf.applyOps (s : ItemShelf) (ops : List ShelfOp) : ItemShelf :=
  ops.foldl ItemShelf.applyOp s

/-- Add a whole list of items to a shelf, head of the list first. -/
def ItemShelf.addAll (s : ItemShelf) (l : List Item) : ItemShelf :=
  l.foldl ItemShelf.add_item s

/-- Call `remove_item` `n` times, collecting the dispensed items in order;
stop at the first failure. -/
def ItemShelf.drain : ItemShelf → Nat → List Item
  | _, 0 => []
  | s, n + 1 =>
      match s.remove_item with
      | (s2, Except.ok item) => item :: s2.drain n
      | (_, Except.error _) => []

/-- The external events driving the controller. -/
inductive VMEvent where
  | insert (coin : Coin)
  | select (code : Nat)
deriving DecidableEq, Repr

/-- Apply one controller event, keeping the post-state. -/
def VendingMachine.applyEvent (m : VendingMachine) : VMEvent → VendingMachine
  | VMEvent.insert coin => (m.insert_coin coin).1
  | VMEvent.select code => (m.select_product code).1

/-- Run a sequence of controller events from a machine state. -/
def VendingMachine.run (m : VendingMachine) (es : List VMEvent) : VendingMachine :=
  es.foldl VendingMachine.applyEvent m

/-- A controller state reachable from `VendingMachine.init` by some event
sequence. -/
def VendingMachine.Reachable (m : VendingMachine) : Prop :=
  ∃ es : List VMEvent, VendingMachine.init.run es = m

/-- A one-item demonstration product: a 10-priced coke. -/
def demoItem : Item :=
  { type := ItemType.coke, price := 10 }

/-- A demonstration shelf: code 100 holding exactly `demoItem`. -/
def demoShelf : ItemShelf :=
  { code := 100, items := [demoItem], is_sold_out := false }

/-- A demonstration machine in `HAS_MONEY` over the one-shelf inventory
`[demoShelf]`, holding the given coins. -/
def demoMachine (coins : List Coin) : VendingMachine :=
  { state := "HAS_MONEY", inventory := { shelves := [demoShelf] },
    inserted_coins := coins, selected_code := none }

/-!  Helper lemmas shared by several claims. -/

/-- When no shelf carries the requested code, the traversal of
`Inventory.get_item` touches nothing and raises invalid-shelf-code. -/
theorem getItemShelves_not_found (shelves : List ItemShelf) (code : Nat)
    (h : ∀ s ∈ shelves, s.code ≠ code) :
    getItemShelves shelves code = (shelves, Except.error VMError.invalidShelfCode) := by
  induction shelves with
  | nil => rfl
  | cons shelf rest ih =>
      have hne : (shelf.code == code) = false := by
        simpa using h shelf (List.mem_cons_self shelf rest)
      have hrest := ih (fun s hs => h s (List.mem_cons_of_mem shelf hs))
      simp [getItemShelves, hne, hrest]

/-- The traversal of `Inventory.get_item` stops at the first shelf carrying
the requested code, replaces it by its `remove_item` post-state, and returns
the `remove_item` result. -/
theorem getItemShelves_found (pre post : List ItemShelf) (shelf : ItemShelf) (code : Nat)
    (hpre : ∀ s ∈ pre, s.code ≠ code) (hcode : shelf.code = code) :
    getItemShelves (pre ++ shelf :: post) code =
      (pre ++ shelf.remove_item.1 :: post, shelf.remove_item.2) := by
  induction pre with
  | nil => simp [getItemShelves, hcode]
  | cons a rest ih =>
      have hne : (a.code == code) = false := by
        simpa using hpre a (List.mem_cons_self a rest)
      have hrest := ih (fun s hs => hpre s (List.mem_cons_of_mem a hs))
      simp [getItemShelves, hne, hrest]

/-- Every branch of `select_product` taken from `HAS_MONEY` ends in `reset`:
the post-state is `IDLE` with no coins and no selected code. -/
theorem select_product_resets_fields (m : VendingMachine) (code : Nat)
    (h : m.state = "HAS_MONEY") :
    (m.select_product code).1.state = "IDLE" ∧
    (m.select_product code).1.inserted_coins = [] ∧
    (m.select_product code).1.selected_code = none := by
  have hguard : (m.state == "HAS_MONEY") = true := by simp [h]
  unfold VendingMachine.select_product
  rw [if_pos hguard]
  dsimp only
  split
  · simp [VendingMachine.reset]
  · split <;> simp [VendingMachine.reset]

/-- The inductive invariant of the controller: the state string is one of
the two legal values, and `IDLE` carries no transaction residue. -/
def GoodVM (m : VendingMachine) : Prop :=
  (m.state = "IDLE" ∨ m.state = "HAS_MONEY") ∧
  (m.state = "IDLE" → m.inserted_coins = [] ∧ m.selected_code = none)

theorem goodVM_init : GoodVM VendingMachine.init := by
  constructor
  · exact Or.inl rfl
  · intro _; exact ⟨rfl, rfl⟩

theorem goodVM_applyEvent (m : VendingMachine) (e : VMEvent) (h : GoodVM m) :
    GoodVM (m.applyEvent e) := by
  cases e with
  | insert coin =>
      have hguard : (m.state == "IDLE" || m.state == "HAS_MONEY") = true := by
        rcases h.1 with h1 | h1 <;> simp [h1]
      constructor
      · simp [VendingMachine.applyEvent, VendingMachine.insert_coin, hguard]
      · simp [VendingMachine.applyEvent, VendingMachine.insert_coin, hguard]
  | select code =>
      rcases h.1 with h1 | h1
      · have hguard : (m.state == "HAS_MONEY") = false := by rw [h1]; decide
        have hun : m.applyEvent (VMEvent.select code) = m := by
          simp [VendingMachine.applyEvent, VendingMachine.select_product, hguard]
        rw [hun]; exact h
      · have hr := select_product_resets_fields m code h1
        exact ⟨Or.inl hr.1, fun _ => ⟨hr.2.1, hr.2.2⟩⟩

theorem goodVM_run (m : VendingMachine) (es : List VMEvent) (h : GoodVM m) :
    GoodVM (m.run es) := by
  induction es generalizing m with
  | nil => simpa [VendingMachine.run] using h
  | cons e rest ih =>
      have h1 := goodVM_applyEvent m e h
      simpa [VendingMachine.run, List.foldl_cons] using ih (m.applyEvent e) h1

theorem goodVM_reachable (m : VendingMachine) (h : m.Reachable) : GoodVM m := by
  obtain ⟨es, hes⟩ := h
  simpa [hes] using goodVM_run VendingMachine.init es goodVM_init

/-!  Claim theorems. -/

/-- Claim C4: after every `select_product` call made from the `HAS_FUNDS`
state (`HAS_MONEY` in the code), whatever the outcome — dispense,
insufficient funds, invalid shelf code or out of stock — the controller is
`IDLE`, its coin list is empty and its selected code is cleared. -/
theorem select_product_always_resets (m : VendingMachine) (code : Nat)
    (h : m.state = "HAS_MONEY") :
    (m.select_product code).1.state = "IDLE" ∧
    (m.select_product code).1.inserted_coins = [] ∧
    (m.select_product code).1.selected_code = none :=
  select_product_resets_fields m code h

/-- Witness for claim C4 at a concrete machine in `HAS_MONEY`. -/
theorem select_product_always_resets_witness :
    (VendingMachine.select_product
        { state := "HAS_MONEY", inventory := Inventory.init 10,
          inserted_coins := [Coin.ten], selected_code := none } 101).1.state = "IDLE" ∧
    (VendingMachine.select_product
        { state := "HAS_MONEY", inventory := Inventory.init 10,
          inserted_coins := [Coin.ten], selected_code := none } 101).1.inserted_coins = [] ∧
    (VendingMachine.select_product
        { state := "HAS_MONEY", inventory := Inventory.init 10,
          inserted_coins := [Coin.ten], selected_code := none } 101).1.selected_code = none :=
  select_product_always_resets _ 101 rfl

/-- Claim C7: `select_product` called in `IDLE` always fails with the
invalid-state-transition error and leaves the machine — inventory
included — completely unchanged, so nothing is dispensed. -/
theorem select_product_idle_rejected (m : VendingMachine) (code : Nat)
    (h : m.state = "IDLE") :
    m.select_product code = (m, Except.error VMError.invalidStateTransition) := by
  have hguard : (m.state == "HAS_MONEY") = false := by rw [h]; decide
  simp [VendingMachine.select_product, hguard]

/-- Witness for claim C7 at the freshly constructed machine. -/
theorem select_product_idle_rejected_witness :
    VendingMachine.init.select_product 101 =
      (VendingMachine.init, Except.error VMError.invalidStateTransition) :=
  select_product_idle_rejected VendingMachine.init 101 rfl

/-- Claim C8: in every controller state reachable from the initial state by
insert-coin and select-product events, the state field is `IDLE` or
`HAS_MONEY`, and in `IDLE` the coin list is empty and the selected code is
unset. -/
theorem reachable_vm_invariant (m : VendingMachine) (h : m.Reachable) :
    (m.state = "IDLE" ∨ m.state = "HAS_MONEY") ∧
    (m.state = "IDLE" → m.inserted_coins = [] ∧ m.selected_code = none) :=
  goodVM_reachable m h

/-- Witness for claim C8 at the initial machine, reachable by the empty
event sequence. -/
theorem reachable_vm_invariant_witness :
    (VendingMachine.init.state = "IDLE" ∨ VendingMachine.init.state = "HAS_MONEY") ∧
    (VendingMachine.init.state = "IDLE" →
      VendingMachine.init.inserted_coins = [] ∧
      VendingMachine.init.selected_code = none) :=
  reachable_vm_invariant VendingMachine.init ⟨[], rfl⟩

/-- Claim C9: from every reachable controller state, `insert_coin` never
fails — its invalid-state branch is dead code — and it appends the coin and
moves the state to `HAS_MONEY`. -/
theorem insert_coin_never_fails (m : VendingMachine) (h : m.Reachable) (coin : Coin) :
    (m.insert_coin coin).2 = Except.ok () ∧
    (m.insert_coin coin).1.inserted_coins = m.inserted_coins ++ [coin] ∧
    (m.insert_coin coin).1.state = "HAS_MONEY" := by
  have hg := goodVM_reachable m h
  have hguard : (m.state == "IDLE" || m.state == "HAS_MONEY") = true := by
    rcases hg.1 with h1 | h1 <;> simp [h1]
  simp [VendingMachine.insert_coin, hguard]

/-- Witness for claim C9 at the initial machine. -/
theorem insert_coin_never_fails_witness :
    (VendingMachine.init.insert_coin Coin.one).2 = Except.ok () ∧
    (VendingMachine.init.insert_coin Coin.one).1.inserted_coins =
      VendingMachine.init.inserted_coins ++ [Coin.one] ∧
    (VendingMachine.init.insert_coin Coin.one).1.state = "HAS_MONEY" :=
  insert_coin_never_fails VendingMachine.init ⟨[], rfl⟩ Coin.one

/-- Claim C10: selecting a code matched by no shelf from `HAS_MONEY` leaves
the whole inventory — every shelf's stock and sold-out flag — unchanged,
fails with invalid-shelf-code, and only resets the transaction fields. -/
theorem select_product_unknown_code_frame (m : VendingMachine) (code : Nat)
    (hstate : m.state = "HAS_MONEY")
    (hcode : ∀ s ∈ m.inventory.shelves, s.code ≠ code) :
    (m.select_product code).1.inventory = m.inventory ∧
    (m.select_product code).2 = Except.error VMError.invalidShelfCode ∧
    (m.select_product code).1.state = "IDLE" ∧
    (m.select_product code).1.inserted_coins = [] ∧
    (m.select_product code).1.selected_code = none := by
  have hguard : (m.state == "HAS_MONEY") = true := by simp [hstate]
  have hget : getItemShelves m.inventory.shelves code =
      (m.inventory.shelves, Except.error VMError.invalidShelfCode) :=
    getItemShelves_not_found m.inventory.shelves code hcode
  unfold VendingMachine.select_product
  rw [if_pos hguard]
  dsimp only
  simp [Inventory.get_item, hget, VendingMachine.reset]

/-- Witness for claim C10 at a one-shelf machine and the unknown code 999. -/
theorem select_product_unknown_code_frame_witness :
    (VendingMachine.select_product
        { state := "HAS_MONEY", inventory := Inventory.init 1,
          inserted_coins := [Coin.one], selected_code := none } 999).1.inventory =
      Inventory.init 1 ∧
    (VendingMachine.select_product
        { state := "HAS_MONEY", inventory := Inventory.init 1,
          inserted_coins := [Coin.one], selected_code := none } 999).2 =
      Except.error VMError.invalidShelfCode ∧
    (VendingMachine.select_product
        { state := "HAS_MONEY", inventory := Inventory.init 1,
          inserted_coins := [Coin.one], selected_code := none } 999).1.state = "IDLE" ∧
    (VendingMachine.select_product
        { state := "HAS_MONEY", inventory := Inventory.init 1,
          inserted_coins := [Coin.one], selected_code := none } 999).1.inserted_coins = [] ∧
    (VendingMachine.select_product
        { state := "HAS_MONEY", inventory := Inventory.init 1,
          inserted_coins := [Coin.one], selected_code := none } 999).1.selected_code = none :=
  select_product_unknown_code_frame _ 999 rfl (by decide)

/-- Adding a list of items appends it, in order, to the stock. -/
theorem addAll_items (s : ItemShelf) (l : List Item) :
    (s.addAll l).items = s.items ++ l := by
  induction l generalizing s with
  | nil => simp [ItemShelf.addAll]
  | cons a rest ih =>
      have h1 : s.addAll (a :: rest) = (s.add_item a).addAll rest := rfl
      rw [h1, ih]
      simp [ItemShelf.add_item]

/-- Draining a shelf of as many items as it holds returns exactly its
stock, head first. -/
theorem drain_all (s : ItemShelf) : s.drain s.items.length = s.items := by
  obtain ⟨c, l, b⟩ := s
  induction l generalizing b with
  | nil => rfl
  | cons a rest ih =>
      simp only [List.length_cons, ItemShelf.drain, ItemShelf.remove_item]
      exact congrArg (a :: ·) (ih _)

/-- Claim C5: the items added to a fresh shelf come back out of successive
`remove_item` calls in exactly the order they were added — FIFO. -/
theorem shelf_fifo_order (c : Nat) (l : List Item) :
    ItemShelf.drain ((ItemShelf.init c).addAll l) l.length = l := by
  have h := drain_all ((ItemShelf.init c).addAll l)
  rw [addAll_items] at h
  simpa [ItemShelf.init] using h

/-- Counterexample to claim C2 as stated: a freshly constructed shelf has
empty stock yet `is_sold_out = false`, so the biconditional fails on the
fresh shelf that the claim explicitly includes. -/
theorem fresh_shelf_sold_out_counterexample :
    ¬ ((ItemShelf.init 100).is_sold_out = true ↔ (ItemShelf.init 100).items = []) := by
  decide

/-- One shelf operation applied to a shelf whose sold-out flag is honest on
the sold-out side re-establishes the full biconditional. -/
theorem applyOp_sold_out (s : ItemShelf) (op : ShelfOp)
    (h : s.is_sold_out = true → s.items = []) :
    (s.applyOp op).is_sold_out = (s.applyOp op).items.isEmpty := by
  cases op with
  | add item => simp [ItemShelf.applyOp, ItemShelf.add_item]
  | removeHead =>
      cases hi : s.items with
      | nil => simp [ItemShelf.applyOp, ItemShelf.remove_item, hi]
      | cons a rest =>
          cases hr : rest with
          | nil => simp [ItemShelf.applyOp, ItemShelf.remove_item, hi, hr]
          | cons b rest2 =>
              have hb : s.is_sold_out = false := by
                cases hs : s.is_sold_out with
                | false => rfl
                | true => exact absurd (h hs) (by simp [hi])
              simp [ItemShelf.applyOp, ItemShelf.remove_item, hi, hr, hb]

/-- The biconditional, once established, is preserved by every further
sequence of shelf operations. -/
theorem applyOps_sold_out (ops : List ShelfOp) :
    ∀ s : ItemShelf, s.is_sold_out = s.items.isEmpty →
      (s.applyOps ops).is_sold_out = (s.applyOps ops).items.isEmpty := by
  induction ops with
  | nil => intro s h; simpa [ItemShelf.applyOps] using h
  | cons op rest ih =>
      intro s h
      have h2 : (s.applyOp op).is_sold_out = (s.applyOp op).items.isEmpty :=
        applyOp_sold_out s op (fun hb => by
          cases hil : s.items with
          | nil => rfl
          | cons x xs => rw [hb, hil] at h; simp at h)
      have h3 : s.applyOps (op :: rest) = (s.applyOp op).applyOps rest := rfl
      rw [h3]
      exact ih (s.applyOp op) h2

/-- Claim C2 (amended): after at least one add or remove-head operation on a
freshly constructed shelf the sold-out flag is true exactly when the stock
is empty; the fresh shelf itself starts with empty stock and the flag still
false, so the biconditional only holds from the first mutation on. -/
theorem shelf_sold_out_iff_empty (c : Nat) (op : ShelfOp) (ops : List ShelfOp) :
    ((ItemShelf.init c).applyOps (op :: ops)).is_sold_out =
      ((ItemShelf.init c).applyOps (op :: ops)).items.isEmpty := by
  have h1 : (ItemShelf.init c).applyOps (op :: ops) =
      ((ItemShelf.init c).applyOp op).applyOps ops := rfl
  rw [h1]
  exact applyOps_sold_out ops _ (applyOp_sold_out (ItemShelf.init c) op (fun _ => rfl))

/-- Claim C3: from `HAS_MONEY` with inserted total `T`, selecting the code
of a stocked shelf whose head item has price `P ≤ T` dispenses that head
item with change `T - P`; the shelf keeps its place in the inventory and
holds exactly the tail of its former stock, one item fewer. -/
theorem select_product_dispenses (m : VendingMachine) (code : Nat)
    (pre post : List ItemShelf) (shelf : ItemShelf) (item : Item) (rest : List Item)
    (hstate : m.state = "HAS_MONEY")
    (hshelves : m.inventory.shelves = pre ++ shelf :: post)
    (hpre : ∀ s ∈ pre, s.code ≠ code)
    (hcode : shelf.code = code)
    (hitems : shelf.items = item :: rest)
    (hprice : item.price ≤ (m.inserted_coins.map Coin.value).sum) :
    (m.select_product code).2 =
      Except.ok (item, (m.inserted_coins.map Coin.value).sum - item.price) ∧
    (m.select_product code).1.inventory.shelves =
      pre ++ ({ shelf with items := rest, is_sold_out := if rest.isEmpty then true else shelf.is_sold_out }) :: post ∧
    rest.length + 1 = shelf.items.length := by
  have hguard : (m.state == "HAS_MONEY") = true := by simp [hstate]
  have hrem : shelf.remove_item =
      ({ shelf with items := rest, is_sold_out := if rest.isEmpty then true else shelf.is_sold_out },
       Except.ok item) := by
    simp [ItemShelf.remove_item, hitems]
  have hget : getItemShelves m.inventory.shelves code =
      (pre ++ ({ shelf with items := rest, is_sold_out := if rest.isEmpty then true else shelf.is_sold_out }) :: post,
       Except.ok item) := by
    rw [hshelves, getItemShelves_found pre post shelf code hpre hcode, hrem]
  have hnotlt : ¬ (m.inserted_coins.map Coin.value).sum < item.price := not_lt.mpr hprice
  unfold VendingMachine.select_product
  rw [if_pos hguard]
  dsimp only
  simp [Inventory.get_item, hget, hnotlt, VendingMachine.reset, hitems]

/-- Witness for claim C3: the demonstration shelf holds one 10-priced item;
coins 10 and 5 give total 15, so the item is dispensed with change 5 and
the shelf empties. -/
theorem select_product_dispenses_witness :
    ((demoMachine [Coin.ten, Coin.five]).select_product 100).2 =
      Except.ok (demoItem, 5) ∧
    ((demoMachine [Coin.ten, Coin.five]).select_product 100).1.inventory.shelves =
      [{ code := 100, items := [], is_sold_out := true }] ∧
    (0 : Nat) + 1 = 1 :=
  select_product_dispenses (demoMachine [Coin.ten, Coin.five]) 100
    [] [] demoShelf demoItem [] rfl rfl (by simp) rfl rfl (by decide)

/-- Claim C6: `Inventory.get_item` fails with invalid-shelf-code and
touches nothing when no shelf carries the requested code, and fails with
out-of-stock — setting that shelf's sold-out flag as a side effect of the
failed removal — when the shelf carrying the code has empty stock. -/
theorem get_item_failure_modes (inv : Inventory) (code : Nat) :
    ((∀ s ∈ inv.shelves, s.code ≠ code) →
      inv.get_item code = (inv, Except.error VMError.invalidShelfCode)) ∧
    (∀ pre shelf post, inv.shelves = pre ++ shelf :: post →
      (∀ s ∈ pre, s.code ≠ code) → shelf.code = code → shelf.items = [] →
      inv.get_item code =
        ({ shelves := pre ++ ({ shelf with is_sold_out := true }) :: post },
         Except.error VMError.outOfStock)) := by
  constructor
  · intro h
    simp [Inventory.get_item, getItemShelves_not_found inv.shelves code h]
  · intro pre shelf post hs hpre hcode hempty
    have hrem : shelf.remove_item =
        ({ shelf with is_sold_out := true }, Except.error VMError.outOfStock) := by
      simp [ItemShelf.remove_item, hempty]
    simp [Inventory.get_item, hs, getItemShelves_found pre post shelf code hpre hcode, hrem]

/-- Witness for claim C6: code 999 is unknown to a fresh two-shelf
inventory, and a singleton inventory whose shelf 100 is empty answers
out-of-stock while marking the shelf sold out. -/
theorem get_item_failure_modes_witness :
    (Inventory.init 2).get_item 999 =
      (Inventory.init 2, Except.error VMError.invalidShelfCode) ∧
    Inventory.get_item { shelves := [ItemShelf.init 100] } 100 =
      ({ shelves := [{ code := 100, items := [], is_sold_out := true }] },
       Except.error VMError.outOfStock) :=
  ⟨(get_item_failure_modes (Inventory.init 2) 999).1 (by decide),
   (get_item_failure_modes { shelves := [ItemShelf.init 100] } 100).2
     [] (ItemShelf.init 100) [] rfl (by simp) rfl rfl⟩

/-- Claim C1 evaluated at the failing input: with the demonstration shelf
holding one 10-priced item and only 1 paid, `select_product 100` reports
insufficient funds carrying price 10 and paid 1, dispenses nothing and
resets to `IDLE` — but the shelf's stock drops from 1 item to 0, because
`get_item` removes the item before the fund check ever runs.  The claim's
stock-unchanged conjunct therefore fails on the code. -/
theorem insufficient_funds_loses_item :
    ((demoMachine [Coin.one]).select_product 100).2 =
      Except.error (VMError.insufficientFunds 10 1) ∧
    (demoMachine [Coin.one]).inventory.shelves.map (fun s => s.items.length) = [1] ∧
    ((demoMachine [Coin.one]).select_product 100).1.inventory.shelves.map
      (fun s => s.items.length) = [0] ∧
    ((demoMachine [Coin.one]).select_product 100).1.state = "IDLE" :=
  ⟨rfl, rfl, rfl, rfl⟩
